import Mathlib

/-!
Verification of pdf-compressor (janosh/pdf-compressor).

Shallow embedding of the parts of `pdf_compressor/utils.py`,
`pdf_compressor/ilovepdf.py` and `pdf_compressor/main.py` that the claims
address: the reconciler `del_or_keep_compressed`, the `Task` workflow
(`add_file`, `process`, `download`) and the `compress` entry point.

File systems are modelled as association lists from paths to abstract file
contents (a `Nat` identifier), so that overwriting and deletion are
observable.  Python's true division in the keep/discard decision is modelled
over `ℚ`; a division by zero is modelled as an `Except` error, mirroring
Python's `ZeroDivisionError`.
-/

namespace PdfCompressor

/-! ## String utilities (modelling Python's str operations) -/

/-- Lexicographic strict order on code-point lists, as Python compares `str`. -/
def charListLt : List Char → List Char → Bool
  | [], [] => false
  | [], _ :: _ => true
  | _ :: _, [] => false
  | a :: as, b :: bs => a < b || (a == b && charListLt as bs)

/-- Python's `a <= b` on strings (lexicographic over code points). -/
def strLe (a b : String) : Bool :=
  a.data == b.data || charListLt a.data b.data

/-- `lhs` starts with `pre` (char-list level, mirrors Python `str.startswith`). -/
def listStartsWith : List Char → List Char → Bool
  | _, [] => true
  | [], _ :: _ => false
  | a :: as, b :: bs => a == b && listStartsWith as bs

/-- Python `s.startswith(p)`. -/
def strStartsWith (s p : String) : Bool :=
  listStartsWith s.data p.data

/-- Python `s.endswith(p)`. -/
def strEndsWith (s p : String) : Bool :=
  listStartsWith s.data.reverse p.data.reverse

/-- Python `os.path.basename`: everything after the last `'/'`. -/
def basename (s : String) : String :=
  ⟨(s.data.splitOn '/').getLastD s.data⟩

/-- Python `str.rfind`: index of last occurrence, `-1` when absent. -/
def rfindIdx (cs : List Char) (c : Char) : Int :=
  match (cs.enum.filter (fun p => p.2 == c)).getLastD (0, c) with
  | (i, _) => if (cs.enum.filter (fun p => p.2 == c)).isEmpty then -1 else (i : Int)

/-- Python `os.path.splitext`: split at the last dot of the final path
component, unless that component consists only of leading dots up to it. -/
def splitext (p : String) : String × String :=
  let cs := p.data
  let sepIdx := rfindIdx cs '/'
  let dotIdx := rfindIdx cs '.'
  if sepIdx < dotIdx then
    let nameStart := (sepIdx + 1).toNat
    let dotN := dotIdx.toNat
    if (List.range (dotN - nameStart)).any
        (fun k => !(cs.getD (nameStart + k) '.' == '.')) then
      (⟨cs.take dotN⟩, ⟨cs.drop dotN⟩)
    else (p, "")
  else (p, "")

/-- Python `os.path.join(a, b)` for two components. -/
def osPathJoin (a b : String) : String :=
  if strStartsWith b "/" then b
  else if a == "" || strEndsWith a "/" then a ++ b
  else a ++ "/" ++ b

/-! ## Sorting (Python's `sorted` on strings) -/

/-- Insert into a sorted list (stable, like Python's sort). -/
def insertSorted (x : String) : List String → List String
  | [] => [x]
  | y :: ys => if strLe x y then x :: y :: ys else y :: insertSorted x ys

/-- Python `sorted` on a list of strings (lexicographic, stable). -/
def sortStrings : List String → List String
  | [] => []
  | x :: xs => insertSorted x (sortStrings xs)

/-! ## File-system model

A file system is an association list from paths to abstract contents, so
that overwrites and deletions are observable. -/

/-- Contents stored at path `p`, if any. -/
def lookupFs (fs : List (String × Nat)) (p : String) : Option Nat :=
  (fs.find? (fun e => e.1 == p)).map (fun e => e.2)

/-- Python `os.remove p` (no-op here when `p` is absent). -/
def fsRemove (fs : List (String × Nat)) (p : String) : List (String × Nat) :=
  fs.filter (fun e => !(e.1 == p))

/-- Python `shutil.move src dst` / `os.rename src dst`: the contents at
`src` end up at `dst`, silently replacing whatever was at `dst`. -/
def shutilMove (fs : List (String × Nat)) (src dst : String) :
    List (String × Nat) :=
  match lookupFs fs src with
  | some v => fsRemove (fsRemove fs src) dst ++ [(dst, v)]
  | none => fs

/-! ## `del_or_keep_compressed` (utils.py)

`utils.py` lines 105-125: with more than one uploaded file the download is
a ZIP archive; its name list is sorted and each original (by submission
index `idx`) is matched to the first sorted entry whose basename starts
with `"{idx}-"`. -/

/-- The archive name list sorted, as `sorted(archive.namelist())`. -/
def sortedNamelist (entries : List String) : List String :=
  sortStrings entries

/-- utils.py line 119-123: the compressed path chosen for submission index
`idx`: the first entry of the sorted listing whose basename starts with
`"{idx}-"` (Python `next(...)`; `none` models `StopIteration`). -/
def compressedEntryFor (entries : List String) (idx : Nat) : Option String :=
  (sortedNamelist entries).find?
    (fun f => strStartsWith (basename f) (toString idx ++ "-"))

/-- Modelled from the spec: the pairing the spec describes, in which the
`idx`-th original is paired with the `idx`-th entry of the
lexicographically sorted archive listing (purely positional). -/
def positionalEntryFor (entries : List String) (idx : Nat) : Option String :=
  (sortedNamelist entries)[idx]?

/-- utils.py line 137: the keep/discard decision
`diff / orig_size > min_size_reduction / 100`, with Python's true division
modelled over `ℚ`.  Callers must ensure `origSize ≠ 0` (see
`reconcileFile`). -/
def keepCompressed (origSize compressedSize minRed : Nat) : Bool :=
  decide ((((origSize : ℚ) - (compressedSize : ℚ)) / (origSize : ℚ)) >
    (minRed : ℚ) / 100)

/-- What the reconciler did with one (original, compressed) pair. -/
inductive FileAction
  | replacedOriginal
  | savedWithSuffix
  | keptOriginal
  deriving Repr, DecidableEq

/-- utils.py lines 126-184, the per-file decision: evaluating
`diff / orig_size` with `orig_size = 0` raises `ZeroDivisionError`; the
unreachable `else` branch raises `RuntimeError`.  Returns which action
was taken on the pair. -/
def reconcileFile (inplace : Bool) (sfx : String) (minRed : Nat)
    (origSize compressedSize : Nat) : Except String FileAction :=
  if origSize == 0 then .error "ZeroDivisionError"
  else if keepCompressed origSize compressedSize minRed then
    if inplace then .ok .replacedOriginal
    else if !(sfx == "") then .ok .savedWithSuffix
    else .error "RuntimeError"
  else .ok .keptOriginal

/-- The reconciler's loop over all (original size, compressed size) pairs;
an exception in one iteration aborts the whole call. -/
def reconcileAll (inplace : Bool) (sfx : String) (minRed : Nat) :
    List (Nat × Nat) → Except String (List FileAction)
  | [] => .ok []
  | (o, c) :: rest =>
    match reconcileFile inplace sfx minRed o c with
    | .error e => .error e
    | .ok a =>
      match reconcileAll inplace sfx minRed rest with
      | .error e => .error e
      | .ok l => .ok (a :: l)

/-- utils.py lines 168-173: the destination path in suffix mode,
`base_name + suffix + ext` — computed without consulting the file system. -/
def suffixTarget (origPath sfx : String) : String :=
  let be := splitext origPath
  be.1 ++ sfx ++ be.2

/-- utils.py lines 168-173 as a file-system transformation: the compressed
file is moved onto `suffixTarget` by `shutil.move` (which overwrites). -/
def suffixMove (fs : List (String × Nat)) (compressedPath origPath sfx : String) :
    List (String × Nat) :=
  shutilMove fs compressedPath (suffixTarget origPath sfx)

/-- utils.py line 151: the trash destination on macOS,
`expanduser('~') + "/.Trash/" + basename(orig_path)`. -/
def trashPath (home origPath : String) : String :=
  home ++ "/.Trash/" ++ basename origPath

/-- utils.py lines 145-165, the in-place branch on macOS as a file-system
transformation: if a file of the same name is already in the trash it is
deleted (`os.remove`), then the original is renamed into the trash, then
the compressed file is moved onto the original's path. -/
def inplaceDarwinMove (fs : List (String × Nat))
    (home origPath compressedPath : String) : List (String × Nat) :=
  let tp := trashPath home origPath
  let fs1 := if (lookupFs fs tp).isSome then fsRemove fs tp else fs
  let fs2 := shutilMove fs1 origPath tp
  shutilMove fs2 compressedPath origPath

/-! ## `Task` (ilovepdf.py) -/

/-- ilovepdf.py lines 17-27: the `ProcessResponse` TypedDict. -/
structure ProcessResponse where
  timer : String
  status : String
  download_filename : String
  filesize : Nat
  output_filesize : Nat
  output_filenumber : Nat
  output_extensions : List String
  deriving Repr, DecidableEq

/-- The task state the claims touch: `self.files` (an insertion-ordered
dict from local path to server filename), the task id, the password, and
`self._process_response` (`none` models Python's `None`). -/
structure TaskState where
  files : List (String × String)
  taskId : String
  password : String
  processResponse : Option ProcessResponse
  deriving Repr, DecidableEq

/-- Python dict assignment `d[k] = v`: update in place when the key exists
(keeping its position), else append. -/
def setKey : List (String × String) → String → String → List (String × String)
  | [], k, v => [(k, v)]
  | (k', v') :: rest, k, v =>
    if k' == k then (k, v) :: rest else (k', v') :: setKey rest k v

/-- ilovepdf.py lines 177-192, `Task.add_file`: raise `FileNotFoundError`
when the path is not an existing file (`existing` models the set of files
on disk); warn (no state effect) when already present; then
`self.files[file_path] = ""`.  No remote request is made. -/
def addFile (existing : List String) (t : TaskState) (path : String) :
    Except String TaskState :=
  if !(existing.contains path) then .error "FileNotFoundError"
  else .ok { t with files := setKey t.files path "" }

/-- ilovepdf.py lines 227-233: the per-file entries of the process payload,
`files[idx][filename]`, `files[idx][server_filename]`,
`files[idx][password]` for each `(filename, server_filename)` of
`self.files.items()`, starting at index `idx`.  Every password entry gets
the task's single `self.password`. -/
def payloadEntries (password : String) :
    Nat → List (String × String) → List (String × String)
  | _, [] => []
  | idx, (fn, sfn) :: rest =>
    ("files[" ++ toString idx ++ "][filename]", fn) ::
    ("files[" ++ toString idx ++ "][server_filename]", sfn) ::
    ("files[" ++ toString idx ++ "][password]", password) ::
    payloadEntries password (idx + 1) rest

/-- The full process payload: the task's process params plus `task` plus
the per-file entries (ilovepdf.py lines 227-233). -/
def processPayload (params : List (String × String)) (t : TaskState) :
    List (String × String) :=
  params ++ [("task", t.taskId)] ++ payloadEntries t.password 0 t.files

/-- ilovepdf.py lines 235-251, the tail of `Task.process` after the server
responded: `self._process_response = response` is executed first, and only
then is the file-count consistency check performed, raising `ValueError`
on mismatch.  Returns the mutated state together with the call's outcome. -/
def processStep (t : TaskState) (response : ProcessResponse) :
    TaskState × Except String ProcessResponse :=
  let t1 := { t with processResponse := some response }
  if !(t.files.length == response.output_filenumber) then
    (t1, .error "Unexpected file count mismatch")
  else
    (t1, .ok response)

/-- ilovepdf.py lines 265-268: `Task.download` raises `ValueError` when
`self._process_response` is not populated. -/
def downloadCheck (t : TaskState) : Except String Unit :=
  if t.processResponse.isSome then .ok ()
  else .error "You called task.download() but there are no files to download"

/-- ilovepdf.py lines 274-279: where `Task.download` writes the artifact.
`saveToDir = none` models Python `None` (a fresh temporary directory
`freshTmp` is created); any string, the empty string included, is used as
given.  The second component records whether `tempfile.mkdtemp()` ran. -/
def downloadPath (saveToDir : Option String) (freshTmp : String)
    (downloadFilename : String) : String × Bool :=
  match saveToDir with
  | none => (osPathJoin freshTmp downloadFilename, true)
  | some d => (osPathJoin d downloadFilename, false)

/-! ## `compress` (main.py) -/

/-- The externally visible events of one `compress()` invocation. -/
inductive Event
  | remoteAuth
  | remoteStart
  | remoteUpload
  | remoteProcess
  | remoteDownload
  | remoteDelete
  | errorFileNotFound (path : String)
  deriving Repr, DecidableEq

/-- The first input path that is not an existing file, if any
(`Task.add_file` checks `os.path.isfile` for each path in order). -/
def firstMissing (existing : List String) (paths : List String) :
    Option String :=
  paths.find? (fun p => !(existing.contains p))

/-- main.py lines 279-291: after local validation, `compress` constructs
`Compress(...)` — whose initializer performs the remote `auth` and
`start/{tool}` requests — then calls `add_file` for each path (raising
`FileNotFoundError` at the first missing one), then `process()` (which
uploads), `download()` and `delete_current_task()`. -/
def compressTrace (existing paths : List String) : List Event :=
  [Event.remoteAuth, Event.remoteStart] ++
  match firstMissing existing paths with
  | some p => [Event.errorFileNotFound p]
  | none => [Event.remoteUpload, Event.remoteProcess,
             Event.remoteDownload, Event.remoteDelete]

/-- main.py line 186 and line 289: `compress` takes `outdir: str = ""` and
passes it through as `task.download(save_to_dir=outdir)` — always a
string, never Python `None`. -/
def compressDownloadArg (outdir : String) : Option String :=
  some outdir

instance {ε α : Type} [DecidableEq ε] [DecidableEq α] : DecidableEq (Except ε α)
  | .error x, .error y => decidable_of_iff (x = y) (by simp)
  | .error _, .ok _ => isFalse (by simp)
  | .ok _, .error _ => isFalse (by simp)
  | .ok x, .ok y => decidable_of_iff (x = y) (by simp)

/-! ## Helper lemmas -/

/-- The keep/discard decision, restated over `ℤ` (for evaluation): for all
inputs, including `origSize = 0`, the rational comparison agrees with
`m * o < 100 * (o - c)`. -/
theorem keepCompressed_eq_int (o c m : Nat) :
    keepCompressed o c m = decide ((m : ℤ) * o < 100 * ((o : ℤ) - c)) := by
  unfold keepCompressed
  rw [decide_eq_decide]
  rcases Nat.eq_zero_or_pos o with h | h
  · subst h
    simp only [Nat.cast_zero, div_zero, gt_iff_lt]
    constructor
    · intro hlt
      exact absurd hlt (not_lt.mpr (by positivity))
    · intro hlt
      simp only [Nat.cast_zero] at hlt
      omega
  · have ho : (0:ℚ) < o := by exact_mod_cast h
    rw [gt_iff_lt, div_lt_div_iff₀ (by norm_num) ho]
    constructor
    · intro hlt
      have h3 : ((m * o : ℤ) : ℚ) < ((100 * ((o:ℤ) - c) : ℤ) : ℚ) := by
        push_cast
        linarith
      exact_mod_cast h3
    · intro hlt
      have h3 : ((m * o : ℤ) : ℚ) < ((100 * ((o:ℤ) - c) : ℤ) : ℚ) := by
        exact_mod_cast hlt
      push_cast at h3
      linarith

/-- With a positive original size and a valid mode, `reconcileFile` raises
nothing: it returns `keptOriginal` exactly when the reduction is not
strictly above the threshold. -/
theorem reconcileFile_of_pos (inplace : Bool) (sfx : String) (m o c : Nat)
    (ho : 0 < o) (hmode : inplace = true ∨ sfx ≠ "") :
    reconcileFile inplace sfx m o c =
      (if keepCompressed o c m then
        (if inplace then Except.ok FileAction.replacedOriginal
         else Except.ok FileAction.savedWithSuffix)
       else Except.ok FileAction.keptOriginal) := by
  unfold reconcileFile
  have h0 : (o == 0) = false := by
    simp only [beq_eq_false_iff_ne, ne_eq]
    omega
  rw [h0]
  simp only [Bool.false_eq_true, if_false]
  cases hk : keepCompressed o c m with
  | false => simp
  | true =>
    simp only [if_true]
    cases hip : inplace with
    | true => simp
    | false =>
      have hs : sfx ≠ "" := by
        rcases hmode with h | h
        · exact absurd (hip ▸ h) (by simp)
        · exact h
      have hs' : (sfx == "") = false := by
        simp only [beq_eq_false_iff_ne, ne_eq]
        exact hs
      simp [hs']

/-- Under a positive original size and a valid mode, `reconcileFile`
always succeeds. -/
theorem reconcileFile_ok (inplace : Bool) (sfx : String) (m o c : Nat)
    (ho : 0 < o) (hmode : inplace = true ∨ sfx ≠ "") :
    ∃ a, reconcileFile inplace sfx m o c = Except.ok a := by
  rw [reconcileFile_of_pos inplace sfx m o c ho hmode]
  rcases keepCompressed o c m <;> rcases inplace <;> simp

/-- Appending to the empty string is the identity. -/
theorem empty_append_str : ∀ s : String, "" ++ s = s
  | ⟨_⟩ => rfl


/-! ## Claim theorems -/

/-- C2: for every (original, compressed) pair with original size `o > 0`,
compressed size `c` and integer threshold `m`, the reconciler keeps the
compressed file iff `(o - c)/o > m/100` holds strictly; when the reduction
ratio equals `m/100` exactly, the compressed file is discarded and the
original retained (`keptOriginal`). -/
theorem C2_strict_threshold (inplace : Bool) (sfx : String) (o c m : Nat)
    (ho : 0 < o) (hmode : inplace = true ∨ sfx ≠ "") :
    (reconcileFile inplace sfx m o c = Except.ok FileAction.keptOriginal ↔
      ¬(((o : ℚ) - (c : ℚ)) / (o : ℚ) > (m : ℚ) / 100)) ∧
    (((o : ℚ) - (c : ℚ)) / (o : ℚ) = (m : ℚ) / 100 →
      reconcileFile inplace sfx m o c = Except.ok FileAction.keptOriginal) := by
  have hkeep : keepCompressed o c m = true ↔
      (((o : ℚ) - (c : ℚ)) / (o : ℚ) > (m : ℚ) / 100) := by
    unfold keepCompressed
    simp
  rw [reconcileFile_of_pos inplace sfx m o c ho hmode]
  have hmain : (if keepCompressed o c m then
        (if inplace then Except.ok FileAction.replacedOriginal
         else Except.ok FileAction.savedWithSuffix)
       else (Except.ok FileAction.keptOriginal : Except String FileAction)) =
      Except.ok FileAction.keptOriginal ↔
      ¬(((o : ℚ) - (c : ℚ)) / (o : ℚ) > (m : ℚ) / 100) := by
    cases hk : keepCompressed o c m with
    | false =>
      have hr : ¬(((o : ℚ) - (c : ℚ)) / (o : ℚ) > (m : ℚ) / 100) := by
        intro hr
        have := hkeep.mpr hr
        rw [hk] at this
        exact Bool.false_ne_true this
      simpa using hr
    | true =>
      have hr := hkeep.mp hk
      apply iff_of_false
      · rcases inplace <;> simp
      · exact fun hn => hn hr
  refine ⟨hmain, fun heq => ?_⟩
  apply hmain.mpr
  rw [heq]
  exact lt_irrefl _

/-- Witness for C2: original 10 bytes, compressed 9 bytes, threshold 10 --
the reduction ratio equals the threshold exactly and the original is
kept. -/
theorem C2_strict_threshold_witness :
    reconcileFile true "" 10 10 9 = Except.ok FileAction.keptOriginal :=
  (C2_strict_threshold true "" 10 9 10 (by decide) (Or.inl rfl)).2 (by norm_num)

/-- C9: `del_or_keep_compressed` requires every original to have nonzero
size: with a valid mode, an invocation whose pairs all have positive
original size completes, while any invocation containing a zero-byte
original fails with the division error. -/
theorem C9_zero_size_division_error (inplace : Bool) (sfx : String)
    (minRed : Nat) (pairs : List (Nat × Nat))
    (hmode : inplace = true ∨ sfx ≠ "") :
    ((∀ p ∈ pairs, 0 < p.1) →
      ∃ l, reconcileAll inplace sfx minRed pairs = Except.ok l) ∧
    ((∃ c, (0, c) ∈ pairs) →
      reconcileAll inplace sfx minRed pairs = Except.error "ZeroDivisionError") := by
  induction pairs with
  | nil =>
    refine ⟨fun _ => ⟨[], rfl⟩, ?_⟩
    rintro ⟨c', hc'⟩
    simp at hc'
  | cons pr rest ih =>
    obtain ⟨o, c⟩ := pr
    constructor
    · intro hall
      have ho : 0 < o := hall (o, c) (List.mem_cons_self _ _)
      obtain ⟨a, ha⟩ := reconcileFile_ok inplace sfx minRed o c ho hmode
      obtain ⟨l, hl⟩ := ih.1 (fun p hp => hall p (List.mem_cons_of_mem _ hp))
      exact ⟨a :: l, by simp only [reconcileAll, ha, hl]⟩
    · rintro ⟨c', hc'⟩
      rcases List.mem_cons.mp hc' with h | h
      · injection h with h1 h2
        subst h1
        rfl
      · rcases Nat.eq_zero_or_pos o with h0 | h0
        · subst h0
          rfl
        · obtain ⟨a, ha⟩ := reconcileFile_ok inplace sfx minRed o c h0 hmode
          have htl := ih.2 ⟨c', h⟩
          simp only [reconcileAll, ha, htl]

/-- Witness for C9: a batch whose second original is zero-byte fails with
the division error. -/
theorem C9_zero_size_division_error_witness :
    reconcileAll true "" 10 [(10, 9), (0, 5)] =
      Except.error "ZeroDivisionError" :=
  (C9_zero_size_division_error true "" 10 [(10, 9), (0, 5)]
    (Or.inl rfl)).2 ⟨5, by decide⟩

/-- C10: `Task.download` creates a fresh temporary directory only when its
argument is `none` (Python `None`); the empty string -- the value
`compress()` passes by default via `outdir` -- does not trigger the
`None`-check, and the artifact path is the bare download filename,
i.e. relative to the current working directory. -/
theorem C10_empty_outdir_cwd (outdir tmp fn : String)
    (h : strStartsWith fn "/" = false) :
    downloadPath (compressDownloadArg "") tmp fn = (fn, false) ∧
    (downloadPath (compressDownloadArg outdir) tmp fn).2 = false ∧
    (downloadPath none tmp fn).2 = true := by
  refine ⟨?_, rfl, rfl⟩
  simp only [compressDownloadArg, downloadPath, osPathJoin, h]
  simp [empty_append_str]

/-- Witness for C10: with the default empty `outdir`, `compressed.pdf` is
written relative to the current working directory and no temporary
directory is created. -/
theorem C10_empty_outdir_cwd_witness :
    downloadPath (compressDownloadArg "") "/tmp/x" "compressed.pdf" =
      ("compressed.pdf", false) :=
  (C10_empty_outdir_cwd "out" "/tmp/x" "compressed.pdf" (by decide)).1

/-- Membership in `insertSorted`. -/
theorem mem_insertSorted (x y : String) (l : List String) :
    y ∈ insertSorted x l ↔ y = x ∨ y ∈ l := by
  induction l with
  | nil => simp [insertSorted]
  | cons a as ih =>
    by_cases h : strLe x a = true
    · simp [insertSorted, h]
    · simp only [insertSorted, h, Bool.false_eq_true, if_false, List.mem_cons, ih]
      tauto

/-- Sorting preserves membership. -/
theorem mem_sortStrings (y : String) (l : List String) :
    y ∈ sortStrings l ↔ y ∈ l := by
  induction l with
  | nil => simp [sortStrings]
  | cons a as ih =>
    simp [sortStrings, mem_insertSorted, ih]

/-- When exactly one element satisfies the predicate, `find?` returns it. -/
theorem find?_eq_of_unique {α : Type} (p : α → Bool) (l : List α) (e : α)
    (he : e ∈ l) (hp : p e = true)
    (hu : ∀ x ∈ l, p x = true → x = e) :
    l.find? p = some e := by
  induction l with
  | nil => simp at he
  | cons a as ih =>
    cases ha : p a with
    | true =>
      rw [List.find?_cons_of_pos _ ha]
      rw [hu a (List.mem_cons_self _ _) ha]
    | false =>
      rw [List.find?_cons_of_neg _ (by simp [ha])]
      rcases List.mem_cons.mp he with h | h
      · subst h
        rw [hp] at ha
        exact absurd ha (by simp)
      · exact ih h (fun x hx hpx => hu x (List.mem_cons_of_mem _ hx) hpx)

/-- C1 counterexample: with eleven files the lexicographic sort places
`"10-a"` at position 2, yet the reconciler pairs submission index 2 with
`"2-a"` — the pairing is by numeric index tag, not positional. -/
theorem C1_counterexample :
    compressedEntryFor
      ["0-a", "1-a", "2-a", "3-a", "4-a", "5-a", "6-a", "7-a", "8-a",
       "9-a", "10-a"] 2 = some "2-a" ∧
    positionalEntryFor
      ["0-a", "1-a", "2-a", "3-a", "4-a", "5-a", "6-a", "7-a", "8-a",
       "9-a", "10-a"] 2 = some "10-a" ∧
    ("2-a" : String) ≠ "10-a" :=
  ⟨by decide, by decide, by decide⟩

/-- C1 (amended): the reconciler pairs submission index `idx` with the
unique archive entry whose basename starts with the tag `"{idx}-"`,
whatever that entry's position in the sorted listing. -/
theorem C1_tag_match (entries : List String) (idx : Nat) (e : String)
    (he : e ∈ entries)
    (hm : strStartsWith (basename e) (toString idx ++ "-") = true)
    (hu : ∀ x ∈ entries,
      strStartsWith (basename x) (toString idx ++ "-") = true → x = e) :
    compressedEntryFor entries idx = some e := by
  unfold compressedEntryFor sortedNamelist
  exact find?_eq_of_unique _ _ e ((mem_sortStrings e entries).mpr he) hm
    (fun x hx hpx => hu x ((mem_sortStrings x entries).mp hx) hpx)

/-- Witness for the amended C1 at the eleven-file input. -/
theorem C1_tag_match_witness :
    compressedEntryFor
      ["0-a", "1-a", "2-a", "3-a", "4-a", "5-a", "6-a", "7-a", "8-a",
       "9-a", "10-a"] 2 = some "2-a" :=
  C1_tag_match _ 2 "2-a" (by decide) (by decide) (by decide)



/-- Removing a path removes its entry. -/
theorem lookupFs_fsRemove (fs : List (String × Nat)) (p : String) :
    lookupFs (fsRemove fs p) p = none := by
  unfold lookupFs fsRemove
  induction fs with
  | nil => rfl
  | cons e rest ih =>
    rw [List.filter_cons]
    cases he : (e.1 == p) with
    | true =>
      simp only [he, Bool.not_true, if_false]
      exact ih
    | false =>
      simp only [he, Bool.not_false, if_true]
      rw [List.find?_cons_of_neg _ (by simp [he])]
      exact ih

/-- Appending an entry for a previously absent path makes it visible. -/
theorem lookupFs_append_right (l : List (String × Nat)) (p : String) (v : Nat) :
    lookupFs l p = none → lookupFs (l ++ [(p, v)]) p = some v := by
  induction l with
  | nil =>
    intro _
    unfold lookupFs
    rw [List.nil_append, List.find?_cons_of_pos _ (by simp)]
    rfl
  | cons e rest ih =>
    intro h
    unfold lookupFs at h ⊢
    cases he : (e.1 == p) with
    | true =>
      rw [List.find?_cons_of_pos _ (by simp [he])] at h
      simp at h
    | false =>
      rw [List.find?_cons_of_neg _ (by simp [he])] at h
      rw [List.cons_append, List.find?_cons_of_neg _ (by simp [he])]
      exact ih h

/-- C3 (amended): in suffix mode the compressed file is moved onto
`base + suffix + ext` unconditionally; whatever was stored there before is
replaced by the compressed contents, and nothing else is created — no
numeric counter is ever appended. -/
theorem C3_suffix_overwrites (fs : List (String × Nat))
    (src orig sfx : String) (v : Nat)
    (h : lookupFs fs src = some v) :
    suffixMove fs src orig sfx =
      fsRemove (fsRemove fs src) (suffixTarget orig sfx) ++
        [(suffixTarget orig sfx, v)] ∧
    lookupFs (suffixMove fs src orig sfx) (suffixTarget orig sfx) = some v := by
  have h1 : suffixMove fs src orig sfx =
      fsRemove (fsRemove fs src) (suffixTarget orig sfx) ++
        [(suffixTarget orig sfx, v)] := by
    unfold suffixMove shutilMove
    rw [h]
  refine ⟨h1, ?_⟩
  rw [h1]
  exact lookupFs_append_right _ _ _ (lookupFs_fsRemove _ _)

/-- C3 counterexample: `a-c.pdf` already exists (contents 1); moving the
compressed file (contents 2) of `a.pdf` with suffix `-c` lands on the very
same path, destroying the existing file, and no `a-c-2.pdf` is created. -/
theorem C3_counterexample :
    suffixTarget "a.pdf" "-c" = "a-c.pdf" ∧
    lookupFs [("a-c.pdf", 1), ("x/0-a-app", 2)] "a-c.pdf" = some 1 ∧
    suffixMove [("a-c.pdf", 1), ("x/0-a-app", 2)] "x/0-a-app" "a.pdf" "-c" =
      [("a-c.pdf", 2)] ∧
    lookupFs (suffixMove [("a-c.pdf", 1), ("x/0-a-app", 2)]
      "x/0-a-app" "a.pdf" "-c") "a-c-2.pdf" = none :=
  ⟨by decide, by decide, by decide, by decide⟩

/-- Witness for the amended C3 at the concrete collision input. -/
theorem C3_suffix_overwrites_witness :
    lookupFs (suffixMove [("a-c.pdf", 1), ("x/0-a-app", 2)]
      "x/0-a-app" "a.pdf" "-c") (suffixTarget "a.pdf" "-c") = some 2 :=
  (C3_suffix_overwrites [("a-c.pdf", 1), ("x/0-a-app", 2)]
    "x/0-a-app" "a.pdf" "-c" 2 (by decide)).2

/-- C4: evaluating the macOS in-place branch at the failing input of a
second consecutive run: the trash already holds the first run's original
(contents 1); the code deletes it and occupies the same trash name with
the current original (contents 2), so the previously trashed original is
permanently lost rather than kept recoverable. -/
theorem C4_trash_delete_at_failing_input :
    lookupFs [("/Users/u/.Trash/d.pdf", 1), ("/Users/u/d.pdf", 2), ("x/0-d-app", 3)]
      "/Users/u/.Trash/d.pdf" = some 1 ∧
    inplaceDarwinMove
      [("/Users/u/.Trash/d.pdf", 1), ("/Users/u/d.pdf", 2), ("x/0-d-app", 3)]
      "/Users/u" "/Users/u/d.pdf" "x/0-d-app" =
      [("/Users/u/.Trash/d.pdf", 2), ("/Users/u/d.pdf", 3)] :=
  ⟨by decide, by decide⟩

/-- C5 (amended): `Task.process` assigns `_process_response` before the
file-count consistency check; when the counts mismatch the `ValueError` is
raised with `process_result` already populated, so a subsequent
`download()` passes its `StateError` precondition check. -/
theorem C5_response_set_before_check (t : TaskState) (r : ProcessResponse) :
    (processStep t r).1.processResponse = some r ∧
    (t.files.length ≠ r.output_filenumber →
      (processStep t r).2 = Except.error "Unexpected file count mismatch" ∧
      downloadCheck (processStep t r).1 = Except.ok ()) := by
  unfold processStep downloadCheck
  constructor
  · cases h : (t.files.length == r.output_filenumber) <;> simp [h]
  · intro hne
    have h : (t.files.length == r.output_filenumber) = false := by
      simpa using hne
    simp [h]

/-- C5 counterexample: two files, server reports one output — `process`
fails with the consistency error, yet `process_result` is populated and
`download`'s precondition check succeeds. -/
theorem C5_counterexample :
    (processStep ⟨[("a.pdf", "s1"), ("b.pdf", "s2")], "tid", "", none⟩
        ⟨"1", "TaskSuccess", "out.zip", 1000, 800, 1, ["pdf"]⟩).2 =
      Except.error "Unexpected file count mismatch" ∧
    (processStep ⟨[("a.pdf", "s1"), ("b.pdf", "s2")], "tid", "", none⟩
        ⟨"1", "TaskSuccess", "out.zip", 1000, 800, 1, ["pdf"]⟩).1.processResponse =
      some ⟨"1", "TaskSuccess", "out.zip", 1000, 800, 1, ["pdf"]⟩ ∧
    downloadCheck (processStep ⟨[("a.pdf", "s1"), ("b.pdf", "s2")], "tid", "", none⟩
        ⟨"1", "TaskSuccess", "out.zip", 1000, 800, 1, ["pdf"]⟩).1 = Except.ok () :=
  ⟨by decide, by decide, by decide⟩

/-- Witness for the amended C5 at the concrete mismatch input. -/
theorem C5_response_set_before_check_witness :
    downloadCheck (processStep ⟨[("a.pdf", "s1"), ("b.pdf", "s2")], "tid", "", none⟩
        ⟨"1", "TaskSuccess", "out.zip", 1000, 800, 1, ["pdf"]⟩).1 = Except.ok () :=
  ((C5_response_set_before_check _ _).2 (by decide)).2

/-- C6 counterexample: compressing a single missing file performs the
remote `auth` and `start` calls before the `FileNotFoundError` surfaces. -/
theorem C6_counterexample :
    compressTrace [] ["missing.pdf"] =
      [Event.remoteAuth, Event.remoteStart, Event.errorFileNotFound "missing.pdf"] := by
  decide

/-- C6 (amended): whenever some input path is missing, the trace is
exactly auth, start, then the `FileNotFoundError` — the error surfaces
only after the two remote task-creation calls, but before any upload or
process request. -/
theorem C6_error_after_remote_calls (existing paths : List String) (p : String)
    (h : firstMissing existing paths = some p) :
    compressTrace existing paths =
      [Event.remoteAuth, Event.remoteStart, Event.errorFileNotFound p] ∧
    Event.remoteUpload ∉ compressTrace existing paths ∧
    Event.remoteProcess ∉ compressTrace existing paths := by
  have h1 : compressTrace existing paths =
      [Event.remoteAuth, Event.remoteStart, Event.errorFileNotFound p] := by
    unfold compressTrace
    rw [h]
    rfl
  refine ⟨h1, ?_, ?_⟩ <;> rw [h1] <;> simp

/-- Witness for the amended C6: one existing and one missing input. -/
theorem C6_error_after_remote_calls_witness :
    compressTrace ["present.pdf"] ["present.pdf", "missing.pdf"] =
      [Event.remoteAuth, Event.remoteStart, Event.errorFileNotFound "missing.pdf"] :=
  (C6_error_after_remote_calls ["present.pdf"] ["present.pdf", "missing.pdf"]
    "missing.pdf" (by decide)).1

/-- Assigning to an existing key leaves the key list unchanged. -/
theorem setKey_keys (l : List (String × String)) (k v : String)
    (h : k ∈ l.map Prod.fst) :
    (setKey l k v).map Prod.fst = l.map Prod.fst := by
  induction l with
  | nil => simp at h
  | cons e rest ih =>
    obtain ⟨k', v'⟩ := e
    cases hk : (k' == k) with
    | true =>
      have hk' : k' = k := by simpa using hk
      simp [setKey, hk, hk']
    | false =>
      have hmem : k ∈ rest.map Prod.fst := by
        rcases List.mem_cons.mp h with h' | h'
        · exact absurd h'.symm (by simpa using hk)
        · exact h'
      simp [setKey, hk, ih hmem]

/-- Assigning `""` is a no-op when the stored value is already `""`. -/
theorem setKey_noop (l : List (String × String)) (k : String)
    (h : l.find? (fun e => e.1 == k) = some (k, "")) :
    setKey l k "" = l := by
  induction l with
  | nil => simp at h
  | cons e rest ih =>
    obtain ⟨k', v'⟩ := e
    cases hk : (k' == k) with
    | true =>
      rw [List.find?_cons_of_pos _ (by simpa using hk)] at h
      injection h with hpair
      simp only [setKey, hk, if_true]
      rw [← hpair]
    | false =>
      rw [List.find?_cons_of_neg _ (by simp [hk])] at h
      simp only [setKey, hk]
      simp [ih h]

/-- C7 (amended): re-adding an already-present (and existing) path
succeeds with no remote call and no duplicate key, but unconditionally
resets the stored server filename to `""`; it is a genuine no-op exactly
when the stored value is still `""` (i.e. before `upload()`). -/
theorem C7_readd_resets_server_name (existing : List String) (t : TaskState)
    (path : String) (hex : existing.contains path = true)
    (hmem : path ∈ t.files.map Prod.fst) :
    addFile existing t path = Except.ok { t with files := setKey t.files path "" } ∧
    (setKey t.files path "").map Prod.fst = t.files.map Prod.fst ∧
    (t.files.find? (fun e => e.1 == path) = some (path, "") →
      setKey t.files path "" = t.files) := by
  refine ⟨?_, setKey_keys _ _ _ hmem, setKey_noop _ _⟩
  unfold addFile
  rw [hex]
  rfl

/-- C7 counterexample: a task whose file already carries the
server-assigned name `srv1` loses it when the same path is re-added — the
files mapping is changed, refuting the no-op claim. -/
theorem C7_counterexample :
    addFile ["a.pdf"] ⟨[("a.pdf", "srv1")], "tid", "", none⟩ "a.pdf" =
      Except.ok ⟨[("a.pdf", "")], "tid", "", none⟩ ∧
    ([("a.pdf", "")] : List (String × String)) ≠ [("a.pdf", "srv1")] :=
  ⟨by decide, by decide⟩

/-- Witness for the amended C7 at the concrete re-add input. -/
theorem C7_readd_resets_server_name_witness :
    addFile ["a.pdf"] ⟨[("a.pdf", "srv1")], "tid", "", none⟩ "a.pdf" =
      Except.ok ⟨[("a.pdf", "")], "tid", "", none⟩ :=
  (C7_readd_resets_server_name ["a.pdf"] ⟨[("a.pdf", "srv1")], "tid", "", none⟩
    "a.pdf" (by decide) (by decide)).1




/-- String append acts as list append on the underlying characters. -/
theorem data_append : ∀ a b : String, (a ++ b).data = a.data ++ b.data
  | ⟨_⟩, ⟨_⟩ => rfl

/-- Every list is one of its own extensions' starts. -/
theorem listStartsWith_append_self (p rest : List Char) :
    listStartsWith (p ++ rest) p = true := by
  induction p with
  | nil => cases rest <;> rfl
  | cons a as ih => simp [listStartsWith, ih]

/-- Extending a list cannot make a failed start-check of a no-longer
pattern succeed. -/
theorem listStartsWith_append_of_le (xs ys p : List Char)
    (hlen : p.length ≤ xs.length)
    (h : listStartsWith xs p = false) :
    listStartsWith (xs ++ ys) p = false := by
  induction xs generalizing p with
  | nil =>
    cases p with
    | nil => simp [listStartsWith] at h
    | cons b bs => simp at hlen
  | cons a as ih =>
    cases p with
    | nil => simp [listStartsWith] at h
    | cons b bs =>
      simp only [listStartsWith, List.cons_append] at h ⊢
      cases hab : (a == b) with
      | false => simp [hab]
      | true =>
        rw [hab] at h
        simp only [Bool.true_and] at h ⊢
        exact ih bs (by simpa using hlen) h

/-- Strings built with the `][password]` suffix end with it. -/
theorem strEndsWith_append_pw (s : String) :
    strEndsWith (s ++ "][password]") "][password]" = true := by
  unfold strEndsWith
  rw [data_append, List.reverse_append]
  exact listStartsWith_append_self _ _

/-- Filename payload keys do not end with `][password]`. -/
theorem strEndsWith_append_fn (s : String) :
    strEndsWith (s ++ "][filename]") "][password]" = false := by
  unfold strEndsWith
  rw [data_append, List.reverse_append]
  exact listStartsWith_append_of_le _ _ _ (by decide) (by decide)

/-- Server-filename payload keys do not end with `][password]`. -/
theorem strEndsWith_append_sfn (s : String) :
    strEndsWith (s ++ "][server_filename]") "][password]" = false := by
  unfold strEndsWith
  rw [data_append, List.reverse_append]
  exact listStartsWith_append_of_le _ _ _ (by decide) (by decide)

/-- C8: in the process payload, every entry whose key is a per-file
password key carries the task's single password, and each submission index
`i` below the batch size contributes the entry
`files[j+i][password] = password` — the same value for every file. -/
theorem C8_uniform_password (pw : String) (files : List (String × String))
    (j : Nat) :
    (∀ e ∈ payloadEntries pw j files,
      strEndsWith e.1 "][password]" = true → e.2 = pw) ∧
    (∀ i < files.length,
      ("files[" ++ toString (j + i) ++ "][password]", pw) ∈
        payloadEntries pw j files) := by
  constructor
  · induction files generalizing j with
    | nil =>
      intro e he
      simp [payloadEntries] at he
    | cons hd tl ih =>
      obtain ⟨fn, sfn⟩ := hd
      intro e he hpw
      simp only [payloadEntries, List.mem_cons] at he
      rcases he with rfl | rfl | rfl | he
      · simp [strEndsWith_append_fn] at hpw
      · simp [strEndsWith_append_sfn] at hpw
      · rfl
      · exact ih (j + 1) e he hpw
  · induction files generalizing j with
    | nil =>
      intro i hi
      simp at hi
    | cons hd tl ih =>
      obtain ⟨fn, sfn⟩ := hd
      intro i hi
      cases i with
      | zero =>
        simp only [Nat.add_zero, payloadEntries]
        exact List.mem_cons_of_mem _
          (List.mem_cons_of_mem _ (List.mem_cons_self _ _))
      | succ i' =>
        have hi' : i' < tl.length := by simpa using hi
        have hmem := ih (j + 1) i' hi'
        have heq : j + 1 + i' = j + (i' + 1) := by omega
        rw [heq] at hmem
        simp only [payloadEntries]
        exact List.mem_cons_of_mem _
          (List.mem_cons_of_mem _ (List.mem_cons_of_mem _ hmem))

/-- Witness for C8: two files, one password — index 1 has the entry with
the shared password value. -/
theorem C8_uniform_password_witness :
    ("files[" ++ toString 1 ++ "][password]", "secret") ∈
      payloadEntries "secret" 0 [("a.pdf", "s1"), ("b.pdf", "s2")] :=
  (C8_uniform_password "secret" [("a.pdf", "s1"), ("b.pdf", "s2")] 0).2 1
    (by decide)


end PdfCompressor
